import Mathlib

/-!
# Baseball Criteria Analyzer — shallow embedding and verification

Embedding of the classification core of `streamlit_baseball_app.py`:
the game-record normalizer (`extract_game_data`), the two criterion
membership tests (`meets_criteria_x`, `meets_criteria_y`), the push-number
breakdown (`analyze_push_combinations`) and the Criteria-X / Criteria-Y-only
corpus classification performed in `main`.

Python dicts become structures; a possibly-`None` game record becomes
`Option GameRecord`; run counts and scores are `Nat` (the API reports
non-negative integers and the code never subtracts).
-/

/-- One normalized inning line, as built by `extract_game_data`:
`{'inning': i+1, 'away_runs': ..., 'home_runs': ...}`. -/
structure InningLine where
  inning : Nat
  away_runs : Nat
  home_runs : Nat
deriving Repr, DecidableEq

/-- A normalized game record, as built by `extract_game_data` and consumed by
the classifiers.  (`game_id` is omitted: no classification code reads it.) -/
structure GameRecord where
  date : String
  away_team : String
  home_team : String
  away_score : Nat
  home_score : Nat
  innings : List InningLine
deriving Repr, DecidableEq

/-- One raw per-inning entry of the API payload.  `away_runs`/`home_runs`
model `inning.get('away', {}).get('runs', 0) or 0`: `none` stands for a
missing `'away'`/`'runs'` key or an explicit `null`, in all of which cases
the code substitutes `0`.  `num` models the inning-number field the MLB
payload carries; `extract_game_data` never reads it (it numbers innings by
`enumerate`). -/
structure RawInning where
  num : Option Nat
  away_runs : Option Nat
  home_runs : Option Nat
deriving Repr, DecidableEq

/-- A raw per-game API payload, restricted to the keys `extract_game_data`
reads.  `none` in an `Option` field models a missing key (each read in the
source goes through `.get` with a default).  A payload whose `'linescore'`
or `'innings'` key is absent is modelled by `innings = []`, exactly the
value `linescore.get('innings', [])` would produce. -/
structure RawGame where
  gameDate : Option String
  away_team : Option String
  home_team : Option String
  away_score : Option Nat
  home_score : Option Nat
  innings : List RawInning
deriving Repr, DecidableEq

/-- The loop `for i, inning in enumerate(innings)` of `extract_game_data`,
building `{'inning': i + 1, 'away_runs': ... or 0, 'home_runs': ... or 0}`
entries; the first argument is the running `enumerate` index. -/
def build_inning_lines : Nat → List RawInning → List InningLine
  | _, [] => []
  | i, inn :: rest =>
    { inning := i + 1
      away_runs := inn.away_runs.getD 0
      home_runs := inn.home_runs.getD 0 } :: build_inning_lines (i + 1) rest

/-- `extract_game_data(game)` (source lines 104–134): returns `None` when the
payload has no inning breakdown, otherwise the normalized record with the
`.get(..., default)` fallbacks for each field.  (The `except: return None`
branch guards against payloads of the wrong shape; the typed model cannot
express an ill-shaped payload, so only the explicit `if not innings` exit
appears.) -/
def extract_game_data (game : RawGame) : Option GameRecord :=
  if game.innings = [] then
    none
  else
    some
      { date := game.gameDate.getD ""
        away_team := game.away_team.getD ""
        home_team := game.home_team.getD ""
        away_score := game.away_score.getD 0
        home_score := game.home_score.getD 0
        innings := build_inning_lines 0 game.innings }

/-- `sum(inning['away_runs'] + inning['home_runs'] for inning in
game_data['innings'][:5])`. -/
def runs_first_5 (g : GameRecord) : Nat :=
  ((g.innings.take 5).map (fun inn => inn.away_runs + inn.home_runs)).sum

/-- `game_data['away_score'] + game_data['home_score']`. -/
def total_runs (g : GameRecord) : Nat :=
  g.away_score + g.home_score

/-- `meets_criteria_x(game_data)` (source lines 136–145): `False` for a
`None` or innings-less record, else `runs_first_5 >= 7 and total_runs < 9`.
The thresholds 7 and 9 are literal constants in the function body. -/
def meets_criteria_x : Option GameRecord → Bool
  | none => false
  | some g =>
    if g.innings = [] then false
    else decide (runs_first_5 g ≥ 7) && decide (total_runs g < 9)

/-- `meets_criteria_y(game_data)` (source lines 147–156): `False` for a
`None` or innings-less record, else `runs_first_5 >= 6 and total_runs <= 9`.
The thresholds 6 and 9 are literal constants in the function body. -/
def meets_criteria_y : Option GameRecord → Bool
  | none => false
  | some g =>
    if g.innings = [] then false
    else decide (runs_first_5 g ≥ 6) && decide (total_runs g ≤ 9)

/-- The three outcomes of the outer comparison of
`analyze_push_combinations` (`runs_first_5` against the first-5 pivot). -/
inductive First5Rel where
  | below
  | equal
  | above
deriving Repr, DecidableEq

/-- The three outcomes of the inner comparison of
`analyze_push_combinations` (`total_runs` against the total pivot). -/
inductive TotalRel where
  | below
  | equal
  | above
deriving Repr, DecidableEq

/-- The outer `if runs_first_5 == push_first5 / elif > / else` comparison. -/
def first5_relation (r pf : Nat) : First5Rel :=
  if r = pf then .equal
  else if r > pf then .above
  else .below

/-- The inner `if total_runs < push_total / elif == / else` comparison. -/
def total_relation (t pt : Nat) : TotalRel :=
  if t < pt then .below
  else if t = pt then .equal
  else .above

/-- The bucket the nested conditionals of `analyze_push_combinations`
(source lines 180–201) assign to a valid game. -/
def push_bucket (g : GameRecord) (pf pt : Nat) : First5Rel × TotalRel :=
  (first5_relation (runs_first_5 g) pf, total_relation (total_runs g) pt)

/-- `analyze_push_combinations(games)` (source lines 158–203).  The source
builds a dict of nine lists keyed by f-strings interpolating the pivots
(`exactly_{pf}_first5_under{pt}`, …, the nine strings are pairwise distinct
for any fixed pivots), skips `None`/innings-less entries, and appends every
other game to exactly one list via the nested comparisons.  Here the dict is
the function from the nine `(First5Rel, TotalRel)` keys to the list of games
appended under that key, in input order.  The pivots `push_first5` and
`push_total` occur as free variables in the source function; they are the
`pf`/`pt` parameters of the model. -/
def analyze_push_combinations (games : List (Option GameRecord)) (pf pt : Nat) :
    First5Rel × TotalRel → List GameRecord := fun b =>
  games.filterMap fun gd =>
    match gd with
    | none => none
    | some g =>
      if g.innings = [] then none
      else if push_bucket g pf pt = b then some g else none

/-- `criteria_x_games = [game for game in games if meets_criteria_x(game)]`
(source line 326, with the classifier as defined at line 136). -/
def criteria_x_games (games : List (Option GameRecord)) : List (Option GameRecord) :=
  games.filter meets_criteria_x

/-- `criteria_y_games = [game for game in games if meets_criteria_y(game)]`
(source line 327). -/
def criteria_y_games (games : List (Option GameRecord)) : List (Option GameRecord) :=
  games.filter meets_criteria_y

/-- `criteria_y_only = [game for game in criteria_y_games if not
meets_criteria_x(game)]` (source line 330). -/
def criteria_y_only (games : List (Option GameRecord)) : List (Option GameRecord) :=
  (criteria_y_games games).filter (fun g => !meets_criteria_x g)

/-- The spec's own formulation of `first5Runs`: the sum of
`away_runs + home_runs` over the first `min(5, len(innings))` innings. -/
def first5Runs_spec (g : GameRecord) : Nat :=
  ((g.innings.take (min 5 g.innings.length)).map
    (fun inn => inn.away_runs + inn.home_runs)).sum

/-- The first entry of `get_sample_data()` (source lines 208–225):
Red Sox 5 – Yankees 3, nine innings, 8 combined runs in the first five. -/
def sampleGame1 : GameRecord :=
  { date := "2024-05-15"
    away_team := "Boston Red Sox"
    home_team := "New York Yankees"
    away_score := 5
    home_score := 3
    innings :=
      [⟨1, 2, 1⟩, ⟨2, 1, 2⟩, ⟨3, 2, 0⟩, ⟨4, 0, 0⟩, ⟨5, 0, 0⟩,
       ⟨6, 0, 0⟩, ⟨7, 0, 0⟩, ⟨8, 0, 0⟩, ⟨9, 0, 0⟩] }

/-- A record whose per-inning runs (13) disagree with the declared final
scores (4–4, total 8): classification must follow the declared scores. -/
def mismatchGame : GameRecord :=
  { date := "2024-07-01"
    away_team := "A"
    home_team := "B"
    away_score := 4
    home_score := 4
    innings := [⟨1, 4, 3⟩, ⟨2, 3, 3⟩] }

/-- A record with a first-5 combined run total of 6 and a declared total of
9 (spec Scenario B). -/
def scenarioBGame : GameRecord :=
  { date := "2024-08-01"
    away_team := "C"
    home_team := "D"
    away_score := 4
    home_score := 5
    innings := [⟨1, 2, 2⟩, ⟨2, 1, 1⟩] }

/-- A record with an empty innings list but nonzero declared scores. -/
def emptyInningsGame : GameRecord :=
  { date := "2024-09-01"
    away_team := "E"
    home_team := "F"
    away_score := 10
    home_score := 12
    innings := [] }

/-- A raw payload with one inning whose away runs are missing/null and whose
own inning-number field disagrees with its position. -/
def rawSample : RawGame :=
  { gameDate := some "2024-05-15"
    away_team := some "Boston Red Sox"
    home_team := some "New York Yankees"
    away_score := some 5
    home_score := some 3
    innings := [⟨some 7, none, some 2⟩, ⟨none, some 1, none⟩] }

/-- The record `extract_game_data` produces from `rawSample`. -/
def rawSampleExtracted : GameRecord :=
  { date := "2024-05-15"
    away_team := "Boston Red Sox"
    home_team := "New York Yankees"
    away_score := 5
    home_score := 3
    innings := [⟨1, 0, 2⟩, ⟨2, 1, 0⟩] }

section Helpers

lemma length_build_inning_lines (i : Nat) (l : List RawInning) :
    (build_inning_lines i l).length = l.length := by
  induction l generalizing i with
  | nil => rfl
  | cons inn rest ih => simp [build_inning_lines, ih]

lemma get?_build_inning_lines (i : Nat) (l : List RawInning) (k : Nat) :
    (build_inning_lines i l).get? k = (l.get? k).map fun inn =>
      { inning := i + k + 1
        away_runs := inn.away_runs.getD 0
        home_runs := inn.home_runs.getD 0 } := by
  induction l generalizing i k with
  | nil => simp [build_inning_lines]
  | cons inn rest ih =>
    cases k with
    | zero => simp [build_inning_lines]
    | succ k =>
      have harith : i + 1 + k + 1 = i + (k + 1) + 1 := by omega
      simp only [build_inning_lines, List.get?_cons_succ]
      rw [ih (i + 1) k, harith]

lemma map_inning_build_inning_lines (i : Nat) (l : List RawInning) :
    (build_inning_lines i l).map InningLine.inning = List.range' (i + 1) l.length := by
  induction l generalizing i with
  | nil => rfl
  | cons inn rest ih =>
    simp [build_inning_lines, List.range'_succ, ih]

lemma runs_first_5_ne_zero_innings_ne_nil (g : GameRecord)
    (h : runs_first_5 g ≠ 0) : g.innings ≠ [] := by
  intro hnil
  exact h (by simp [runs_first_5, hnil])

lemma mem_analyze_push (games : List (Option GameRecord)) (pf pt : Nat)
    (g : GameRecord) (b : First5Rel × TotalRel) :
    g ∈ analyze_push_combinations games pf pt b ↔
      some g ∈ games ∧ g.innings ≠ [] ∧ push_bucket g pf pt = b := by
  constructor
  · intro hmem
    obtain ⟨gd, hgd, hf⟩ := List.mem_filterMap.mp hmem
    cases gd with
    | none => simp at hf
    | some g' =>
      by_cases hnil : g'.innings = []
      · simp [hnil] at hf
      · by_cases hb : push_bucket g' pf pt = b
        · have : g' = g := by simpa [hnil, hb] using hf
          subst this
          exact ⟨hgd, hnil, hb⟩
        · simp [hnil, hb] at hf
  · rintro ⟨hmem, hnil, hb⟩
    exact List.mem_filterMap.mpr ⟨some g, hmem, by simp [hnil, hb]⟩

lemma first5Runs_spec_eq (g : GameRecord) : first5Runs_spec g = runs_first_5 g := by
  unfold first5Runs_spec runs_first_5
  have : g.innings.take (min 5 g.innings.length) = g.innings.take 5 := by
    rw [← List.take_take, List.take_length]
  rw [this]

lemma first5_relation_below_iff (r p : Nat) : first5_relation r p = .below ↔ r < p := by
  unfold first5_relation
  split_ifs with h1 h2 <;> simp <;> omega

lemma first5_relation_equal_iff (r p : Nat) : first5_relation r p = .equal ↔ r = p := by
  unfold first5_relation
  split_ifs with h1 h2 <;> simp <;> omega

lemma first5_relation_above_iff (r p : Nat) : first5_relation r p = .above ↔ r > p := by
  unfold first5_relation
  split_ifs with h1 h2 <;> simp <;> omega

lemma total_relation_below_iff (t p : Nat) : total_relation t p = .below ↔ t < p := by
  unfold total_relation
  split_ifs with h1 h2 <;> simp <;> omega

lemma total_relation_equal_iff (t p : Nat) : total_relation t p = .equal ↔ t = p := by
  unfold total_relation
  split_ifs with h1 h2 <;> simp <;> omega

lemma total_relation_above_iff (t p : Nat) : total_relation t p = .above ↔ t > p := by
  unfold total_relation
  split_ifs with h1 h2 <;> simp <;> omega

end Helpers

/-- C1: for every game record with a non-empty innings list,
`meets_criteria_x` returns `true` iff the combined runs over the first
`min(5, len(innings))` innings are at least 7 and the declared final scores
sum to strictly less than 9. -/
theorem C1_meets_criteria_x_spec (g : GameRecord) (h : g.innings ≠ []) :
    meets_criteria_x (some g) = true ↔
      first5Runs_spec g ≥ 7 ∧ g.away_score + g.home_score < 9 := by
  simp [meets_criteria_x, h, first5Runs_spec_eq, total_runs]

/-- Witness for C1 on a record whose per-inning runs (13) disagree with its
declared final scores (total 8): the declared scores decide membership. -/
theorem C1_meets_criteria_x_spec_witness :
    meets_criteria_x (some mismatchGame) = true ↔
      first5Runs_spec mismatchGame ≥ 7 ∧
        mismatchGame.away_score + mismatchGame.home_score < 9 :=
  C1_meets_criteria_x_spec mismatchGame (by decide)

/-- C2: a game in the Criteria X match set is never in the Y-only set, and
the Y-only set consists exactly of the input games satisfying Criteria Y and
not Criteria X. -/
theorem C2_y_only_exclusion (games : List (Option GameRecord)) (gd : Option GameRecord) :
    (gd ∈ criteria_x_games games → gd ∉ criteria_y_only games) ∧
      (gd ∈ criteria_y_only games ↔
        gd ∈ games ∧ meets_criteria_y gd = true ∧ meets_criteria_x gd = false) := by
  have hmem : gd ∈ criteria_y_only games ↔
      gd ∈ games ∧ meets_criteria_y gd = true ∧ meets_criteria_x gd = false := by
    simp only [criteria_y_only, criteria_y_games, List.mem_filter,
      Bool.not_eq_true', and_assoc]
    try tauto
  refine ⟨?_, hmem⟩
  intro hx hy
  have hxt : meets_criteria_x gd = true := by
    have := List.mem_filter.mp (show gd ∈ games.filter meets_criteria_x from hx)
    exact this.2
  have hxf : meets_criteria_x gd = false := (hmem.mp hy).2.2
  rw [hxt] at hxf
  exact Bool.noConfusion hxf

/-- Witness for C2: the sample game is in the X set of a one-game corpus and
hence not in the Y-only set. -/
theorem C2_y_only_exclusion_witness :
    some sampleGame1 ∉ criteria_y_only [some sampleGame1] :=
  (C2_y_only_exclusion [some sampleGame1] (some sampleGame1)).1 (by decide)

/-- C4: both criterion membership tests return `false` on a `None` record
and on any record with an empty innings list, whatever the declared scores
are. -/
theorem C4_empty_excluded :
    (meets_criteria_x none = false ∧ meets_criteria_y none = false) ∧
      ∀ g : GameRecord, g.innings = [] →
        meets_criteria_x (some g) = false ∧ meets_criteria_y (some g) = false := by
  refine ⟨⟨rfl, rfl⟩, ?_⟩
  intro g h
  simp [meets_criteria_x, meets_criteria_y, h]

/-- Witness for C4 on a record with empty innings and nonzero scores. -/
theorem C4_empty_excluded_witness :
    meets_criteria_x (some emptyInningsGame) = false ∧
      meets_criteria_y (some emptyInningsGame) = false :=
  C4_empty_excluded.2 emptyInningsGame rfl

/-- C8: every game with 6 combined runs in the first five innings and a
declared total of 9 matches Criteria Y, fails Criteria X, and lands in the
(EQUAL, EQUAL) push bucket for the default pivot (6, 9). -/
theorem C8_scenario_b (g : GameRecord) (h5 : runs_first_5 g = 6)
    (ht : total_runs g = 9) :
    meets_criteria_y (some g) = true ∧ meets_criteria_x (some g) = false ∧
      push_bucket g 6 9 = (First5Rel.equal, TotalRel.equal) := by
  have hn : g.innings ≠ [] := runs_first_5_ne_zero_innings_ne_nil g (by omega)
  refine ⟨?_, ?_, ?_⟩
  · simp [meets_criteria_y, hn, h5, ht]
  · simp [meets_criteria_x, hn, h5, ht]
  · simp [push_bucket, first5_relation, total_relation, h5, ht]

/-- Witness for C8 on a concrete two-inning game with first-5 runs 6 and
declared total 9. -/
theorem C8_scenario_b_witness :
    meets_criteria_y (some scenarioBGame) = true ∧
      meets_criteria_x (some scenarioBGame) = false ∧
      push_bucket scenarioBGame 6 9 = (First5Rel.equal, TotalRel.equal) :=
  C8_scenario_b scenarioBGame (by rfl) (by rfl)

/-- C10: under the hard-coded default thresholds Criteria X subsumes
Criteria Y, and the Y-only set is exactly the Y set minus the X set. -/
theorem C10_x_subsumes_y :
    (∀ gd : Option GameRecord, meets_criteria_x gd = true → meets_criteria_y gd = true) ∧
      ∀ (games : List (Option GameRecord)) (gd : Option GameRecord),
        gd ∈ criteria_y_only games ↔
          gd ∈ criteria_y_games games ∧ gd ∉ criteria_x_games games := by
  constructor
  · intro gd h
    cases gd with
    | none => simp [meets_criteria_x] at h
    | some g =>
      by_cases hn : g.innings = []
      · simp [meets_criteria_x, hn] at h
      · simp only [meets_criteria_x, hn, if_false, Bool.and_eq_true,
          decide_eq_true_eq] at h
        simp only [meets_criteria_y, hn, if_false, Bool.and_eq_true,
          decide_eq_true_eq]
        omega
  · intro games gd
    simp only [criteria_y_only, criteria_y_games, criteria_x_games,
      List.mem_filter, Bool.not_eq_true', Bool.not_eq_true]
    constructor
    · rintro ⟨⟨hmem, hy⟩, hxf⟩
      exact ⟨⟨hmem, hy⟩, fun hc => by rw [hc.2] at hxf; exact Bool.noConfusion hxf⟩
    · rintro ⟨⟨hmem, hy⟩, hnx⟩
      refine ⟨⟨hmem, hy⟩, ?_⟩
      cases hxb : meets_criteria_x gd with
      | false => rfl
      | true => exact absurd ⟨hmem, hxb⟩ hnx

/-- Witness for C10: the sample game matches Criteria X, hence Criteria Y. -/
theorem C10_x_subsumes_y_witness :
    meets_criteria_y (some sampleGame1) = true :=
  C10_x_subsumes_y.1 (some sampleGame1) (by rfl)

/-- C3: the push breakdown is a 9-way partition of the games with a
non-empty innings list: a game is in bucket `b` iff it occurs in the input,
has a non-empty innings list, and its (first-5, total) comparisons against
the pivots pick `b`; every such game is in exactly one bucket; `None`
entries and innings-less games are in no bucket; and each comparison sends
a value strictly below / equal to / strictly above its pivot to the
corresponding relation, ties going to EQUAL. -/
theorem C3_push_partition (games : List (Option GameRecord)) (pf pt : Nat)
    (g : GameRecord) :
    (∀ b, g ∈ analyze_push_combinations games pf pt b ↔
        some g ∈ games ∧ g.innings ≠ [] ∧ push_bucket g pf pt = b) ∧
      (some g ∈ games → g.innings ≠ [] →
        ∃! b, g ∈ analyze_push_combinations games pf pt b) ∧
      (∀ r p, (first5_relation r p = .below ↔ r < p) ∧
        (first5_relation r p = .equal ↔ r = p) ∧
        (first5_relation r p = .above ↔ r > p)) ∧
      (∀ t p, (total_relation t p = .below ↔ t < p) ∧
        (total_relation t p = .equal ↔ t = p) ∧
        (total_relation t p = .above ↔ t > p)) := by
  refine ⟨fun b => mem_analyze_push games pf pt g b, ?_, ?_, ?_⟩
  · intro hm hn
    refine ⟨push_bucket g pf pt,
      (mem_analyze_push games pf pt g _).mpr ⟨hm, hn, rfl⟩, ?_⟩
    intro b hb
    exact ((mem_analyze_push games pf pt g b).mp hb).2.2.symm
  · intro r p
    exact ⟨first5_relation_below_iff r p, first5_relation_equal_iff r p,
      first5_relation_above_iff r p⟩
  · intro t p
    exact ⟨total_relation_below_iff t p, total_relation_equal_iff t p,
      total_relation_above_iff t p⟩

/-- Witness for C3: the sample game (first-5 runs 8, total 8) lands in the
(ABOVE, BELOW) bucket of a one-game corpus under the default pivot (6, 9). -/
theorem C3_push_partition_witness :
    sampleGame1 ∈ analyze_push_combinations [some sampleGame1] 6 9
      (First5Rel.above, TotalRel.below) :=
  ((C3_push_partition [some sampleGame1] 6 9 sampleGame1).1
    (First5Rel.above, TotalRel.below)).mpr ⟨by decide, by decide, by rfl⟩

/-- Parameter count of the def of `meets_criteria_x` (source line 136 binds
the single parameter `game_data`). -/
def meets_criteria_x_param_count : Nat := 1

/-- Positional-argument count of the calls `meets_criteria_x(game, x_first5,
x_total, x_operator)` in `main` (source lines 326 and 330). -/
def main_meets_x_call_arg_count : Nat := 4

/-- Parameter count of the def of `analyze_push_combinations` (source line
158 binds the single parameter `games`; the pivots are read as free
variables, bound nowhere at module scope). -/
def analyze_push_param_count : Nat := 1

/-- Positional-argument count of the call `analyze_push_combinations(games,
push_first5, push_total)` in `main` (source line 333). -/
def main_push_call_arg_count : Nat := 3

/-- Python call semantics for the fixed-arity `meets_criteria_x`: a call
whose positional-argument count differs from the def's parameter count
raises `TypeError` before the body runs; a one-argument call runs the body,
whose thresholds are the literals 7 and 9. -/
def call_meets_criteria_x (game : Option GameRecord) (argCount : Nat) :
    Except String Bool :=
  if argCount = meets_criteria_x_param_count then
    Except.ok (meets_criteria_x game)
  else
    Except.error "TypeError"

/-- C5 (code bug): `main` passes the configured thresholds as extra
positional arguments, but the classifiers are defined with a single
parameter and hard-code their thresholds, so the call raises `TypeError`
instead of using the configuration; the one-argument body applies the
hard-coded 7 and 9 to the sample game. -/
theorem C5_hardcoded_thresholds :
    call_meets_criteria_x (some sampleGame1) main_meets_x_call_arg_count =
        Except.error "TypeError" ∧
      meets_criteria_x (some sampleGame1) = true ∧
      analyze_push_param_count ≠ main_push_call_arg_count := by
  refine ⟨rfl, by rfl, by decide⟩

/-- C6: the normalizer returns `None` exactly when the payload has no
inning breakdown; otherwise it returns a record whose inning lines are in
positional correspondence with the payload's, each run value being the
payload's value with `0` substituted when the value is missing. -/
theorem C6_extract_normalizes (raw : RawGame) :
    (extract_game_data raw = none ↔ raw.innings = []) ∧
      ∀ rec, extract_game_data raw = some rec →
        rec.innings.length = raw.innings.length ∧
        ∀ k rawInn, raw.innings.get? k = some rawInn →
          rec.innings.get? k = some
            { inning := k + 1
              away_runs := rawInn.away_runs.getD 0
              home_runs := rawInn.home_runs.getD 0 } ∧
          ∀ line, rec.innings.get? k = some line →
            (rawInn.away_runs = none → line.away_runs = 0) ∧
            (rawInn.home_runs = none → line.home_runs = 0) := by
  constructor
  · unfold extract_game_data
    split_ifs with h <;> simp [h]
  · intro rec hrec
    unfold extract_game_data at hrec
    by_cases h : raw.innings = []
    · simp [h] at hrec
    · rw [if_neg h, Option.some_inj] at hrec
      have hinn : rec.innings = build_inning_lines 0 raw.innings := by
        rw [← hrec]
      refine ⟨by rw [hinn, length_build_inning_lines], ?_⟩
      intro k rawInn hk
      have hget : rec.innings.get? k = some
          { inning := k + 1
            away_runs := rawInn.away_runs.getD 0
            home_runs := rawInn.home_runs.getD 0 } := by
        rw [hinn, get?_build_inning_lines, hk]
        simp
      refine ⟨hget, ?_⟩
      intro line hline
      rw [hget, Option.some_inj] at hline
      constructor
      · intro hnone
        rw [← hline, hnone]
        rfl
      · intro hnone
        rw [← hline, hnone]
        rfl

/-- Witness for C6: in the sample payload the first inning's away runs are
missing and the second inning's home runs are missing, and the normalized
record carries 0 in both places. -/
theorem C6_extract_normalizes_witness :
    rawSampleExtracted.innings.get? 0 =
        some { inning := 1, away_runs := 0, home_runs := 2 } ∧
      rawSampleExtracted.innings.get? 1 =
        some { inning := 2, away_runs := 1, home_runs := 0 } := by
  have h := (C6_extract_normalizes rawSample).2 rawSampleExtracted rfl
  exact ⟨(h.2 0 ⟨some 7, none, some 2⟩ rfl).1, (h.2 1 ⟨none, some 1, none⟩ rfl).1⟩

/-- C7 counterexample: at the non-positive pivot configuration (0, 0) the
push breakdown computes an ordinary bucket result for the sample game — it
is not rejected at construction time. -/
theorem C7_counterexample :
    analyze_push_combinations [some sampleGame1] 0 0
      (First5Rel.above, TotalRel.above) = [sampleGame1] := by rfl

/-- C7 (amended): the classifier performs no configuration validation; for
every pivot configuration, non-positive values included, every valid game of
the input is bucketed by the ordinary comparison rules. -/
theorem C7_no_config_validation (games : List (Option GameRecord)) (pf pt : Nat)
    (g : GameRecord) (hm : some g ∈ games) (hn : g.innings ≠ []) :
    g ∈ analyze_push_combinations games pf pt (push_bucket g pf pt) :=
  (mem_analyze_push games pf pt g _).mpr ⟨hm, hn, rfl⟩

/-- Witness for C7 at the invalid pivot (0, 0). -/
theorem C7_no_config_validation_witness :
    sampleGame1 ∈ analyze_push_combinations [some sampleGame1] 0 0
      (push_bucket sampleGame1 0 0) :=
  C7_no_config_validation [some sampleGame1] 0 0 sampleGame1 (by decide) (by decide)

/-- C9: the normalizer numbers innings sequentially by position, 1 to n,
regardless of any numbering carried in the payload, so the inning numbers of
every normalized record start at 1, increase strictly and have no gaps. -/
theorem C9_inning_numbers (raw : RawGame) (rec : GameRecord)
    (h : extract_game_data raw = some rec) :
    rec.innings.map InningLine.inning = List.range' 1 raw.innings.length ∧
      ∀ k line, rec.innings.get? k = some line → line.inning = k + 1 := by
  unfold extract_game_data at h
  by_cases hnil : raw.innings = []
  · simp [hnil] at h
  · rw [if_neg hnil, Option.some_inj] at h
    have hinn : rec.innings = build_inning_lines 0 raw.innings := by
      rw [← h]
    constructor
    · rw [hinn]
      simpa using map_inning_build_inning_lines 0 raw.innings
    · intro k line hline
      rw [hinn, get?_build_inning_lines] at hline
      cases hraw : raw.innings.get? k with
      | none => rw [hraw] at hline; simp at hline
      | some rawInn =>
        rw [hraw] at hline
        simp only [Option.map_some', Option.some_inj] at hline
        rw [← hline]
        simp

/-- Witness for C9: the sample payload carries inning numbers 7 and `None`,
yet the normalized record is numbered 1, 2. -/
theorem C9_inning_numbers_witness :
    rawSampleExtracted.innings.map InningLine.inning =
      List.range' 1 rawSample.innings.length :=
  (C9_inning_numbers rawSample rawSampleExtracted (by rfl)).1
